import Mathlib

/-!
# scraping: `src/cpp/scrape.cpp`

A shallow embedding of the recipe scraper: the `lxb` DOM helpers
(`text_content`, `element_collection`, `find_elements_by_class_name`,
`find_element_by_class_name`), the `curl_client` (`write_callback`, `fetch`),
`parse_document` and `main`.

Conventions of the embedding.

* A `std::string`, a `std::vector<char>` and an `lxb::string` are a list of
  characters (`Bytes`); class names, the URL and file names are `String`.
* A pointer that the program tests against `nullptr`, or hands on untested,
  is an `Option`; a pointer that is only ever produced non-null is the
  pointee itself.  Reading a member through a null pointer is a `Fault`.
* The two C libraries the program links against (lexbor, libcurl) are not
  part of the repository.  What the program cannot decide by itself (status
  codes, the tree built from the input, the blocks a transfer delivers) is a
  parameter: `Lexbor` and `Curl`.
* A C++ exception that nothing catches ends the run (`Outcome.uncaught`).
-/

set_option maxRecDepth 20000

namespace Scrape

/-- A sequence of `char`. -/
abbrev Bytes := List Char

/-! ## The DOM (lexbor's `lxb_dom_element_t`, `lxb_dom_node_t`) -/

mutual
/-- An element node: local name, the tokens of its `class` attribute and its
child nodes in document order. -/
inductive Element where
  | mk (local_name : String) (class_tokens : List String) (children : List Node)
/-- A child node: character data or an element. -/
inductive Node where
  | text (data : Bytes)
  | element (e : Element)
end

/-- The tokens of the `class` attribute. -/
def Element.class_tokens : Element → List String
  | .mk _ c _ => c

/-- The child nodes. -/
def Element.children : Element → List Node
  | .mk _ _ ch => ch

/-- An `lxb_html_document_t` after parsing: its document element. -/
structure Document where
  element : Element

/-- The type `lxb_status_t`. -/
abbrev lxb_status_t := Nat

/-- The success status of lexbor. -/
def LXB_STATUS_OK : lxb_status_t := 0

/-- The lexbor library as the program sees it.  `chunk_process` and
`chunk_end` give `parser->status` after the call, as a function of all the
bytes handed to the parser so far; `tree` is the document those bytes build.
`elements_by_class_name root collection class_name` gives the status of
`lxb_dom_elements_by_class_name` and the collection after the call;
`node_text_content e` gives the buffer `lxb_dom_node_text_content` returns
(up to its terminator) and the length it stores in `*len`. -/
structure Lexbor where
  parser_init : lxb_status_t
  chunk_begin : Bool
  chunk_process : Bytes → lxb_status_t
  chunk_end : Bytes → lxb_status_t
  tree : Bytes → Document
  elements_by_class_name : Element → List Element → String → lxb_status_t × List Element
  node_text_content : Element → Bytes × Nat

/-- What ends a computation that reads through a null pointer. -/
inductive Fault where
  | null_dereference
  deriving DecidableEq, Repr

/-! ## namespace lxb -/

/-- The constructor `string(ptr)` on a C string: the characters before the
first NUL. -/
def c_string (ptr : Bytes) : Bytes :=
  ptr.takeWhile (fun c => c != Char.ofNat 0)

/-- The body of `lxb::text_content` once `element` is a valid pointer
(lines 42-47). -/
def element_text (L : Lexbor) (element : Element) : Bytes :=
  let r := L.node_text_content element
  if r.2 = 0 then [] else c_string r.1

/-- The function `lxb::text_content` (lines 39-48).  The function has no test
of `element`: line 43 goes through the pointer (`&element->node`) whatever it
is and hands the node to lexbor, which reads it. -/
def text_content (L : Lexbor) (element : Option Element) : Except Fault Bytes :=
  match element with
  | none => Except.error Fault.null_dereference
  | some e => Except.ok (element_text L e)

/-- The class `lxb::element_collection`. -/
structure element_collection where
  m_data : Option (List Element)
  m_elements : List Element

/-- The defaulted constructor `element_collection()`. -/
def element_collection.empty_collection : element_collection :=
  ⟨none, []⟩

/-- The call `lxb_dom_collection_length`. -/
def lxb_dom_collection_length (col : List Element) : Nat := col.length

/-- The call `lxb_dom_collection_element`: null out of range. -/
def lxb_dom_collection_element (col : List Element) (idx : Nat) : Option Element :=
  col[idx]?

/-- One turn of the loop of the constructor (lines 94-100): `push_back` of
element `idx`. -/
def element_collection.push_idx (data : List Element) (acc : List Element) (idx : Nat) :
    List Element :=
  match lxb_dom_collection_element data idx with
  | some e => acc ++ [e]
  | none => acc

/-- The constructor `element_collection(pointer<lxb_dom_collection_t>&)`
(lines 92-101): `idx` runs from `0` up to the length of the collection. -/
def element_collection.of_raw (data : List Element) : element_collection :=
  ⟨some data,
   (List.range (lxb_dom_collection_length data)).foldl (element_collection.push_idx data) []⟩

/-- The method `empty()`. -/
def element_collection.empty (c : element_collection) : Bool := c.m_elements.isEmpty

/-- The method `size()`. -/
def element_collection.size (c : element_collection) : Nat := c.m_elements.length

/-- The method `at(index)` for an index in range. -/
def element_collection.at (c : element_collection) (index : Nat) (h : index < c.size) : Element :=
  c.m_elements.get ⟨index, h⟩

/-- The call `lxb_dom_collection_make(doc, size_hint)`: a collection with no
element. -/
def lxb_dom_collection_make (_size_hint : Nat) : List Element := []

/-- The function `lxb::find_elements_by_class_name` (lines 128-146). -/
def find_elements_by_class_name (L : Lexbor) (root : Element) (class_name : String)
    (size_hint : Nat) : element_collection :=
  let raw := lxb_dom_collection_make size_hint
  let r := L.elements_by_class_name root raw class_name
  if r.1 ≠ LXB_STATUS_OK then element_collection.empty_collection
  else element_collection.of_raw r.2

/-- The function `lxb::find_element_by_class_name` on an element
(lines 148-160); `size_hint` takes its default, 10. -/
def find_element_by_class_name (L : Lexbor) (root : Element) (class_name : String) :
    Option Element :=
  let found := find_elements_by_class_name L root class_name 10
  if h : found.empty = false then
    some (found.at 0 (by
      unfold element_collection.empty at h
      unfold element_collection.size
      exact List.length_pos.mpr (by intro hn; simp [hn] at h)))
  else none

/-- The function `lxb::find_element_by_class_name` on a document
(lines 162-169). -/
def find_element_by_class_name_doc (L : Lexbor) (doc : Document) (class_name : String) :
    Option Element :=
  let dom_root := doc.element
  find_element_by_class_name L dom_root class_name

/-! ## The lookup and the text of lexbor, from the specification -/

mutual
/-- The elements of the subtree of an element, the element first, in document
order. -/
def Element.subtree : Element → List Element
  | .mk n c ch => Element.mk n c ch :: Node.subtree_list ch
/-- The elements in the subtree of a node. -/
def Node.subtree : Node → List Element
  | .text _ => []
  | .element e => e.subtree
/-- The elements in the subtrees of a list of nodes. -/
def Node.subtree_list : List Node → List Element
  | [] => []
  | n :: ns => n.subtree ++ Node.subtree_list ns
end

mutual
/-- Modelled from the spec: `lxb_dom_elements_by_class_name` of lexbor, which
is not part of the repository.  Section 4.3: every element of the subtree of
`root`, "root itself included if it matches", whose class token set contains
`class_name`, in document order.  The walk appends each match to the
collection. -/
def Element.walk (class_name : String) : Element → List Element → List Element
  | .mk n c ch, col =>
      Node.walk_list class_name ch
        (if class_name ∈ c then col ++ [Element.mk n c ch] else col)
/-- The walk through one node. -/
def Node.walk (class_name : String) : Node → List Element → List Element
  | .text _, col => col
  | .element e, col => e.walk class_name col
/-- The walk through the children, first to last. -/
def Node.walk_list (class_name : String) : List Node → List Element → List Element
  | [], col => col
  | n :: ns, col => Node.walk_list class_name ns (n.walk class_name col)
end

mutual
/-- Modelled from the spec: `lxb_dom_node_text_content` of lexbor, which is
not part of the repository.  Section 4.3: "concatenation, in document order,
of all descendant text-node contents". -/
def Element.text : Element → Bytes
  | .mk _ _ ch => Node.text_list ch
/-- The text below one node. -/
def Node.text_below : Node → Bytes
  | .text d => d
  | .element e => e.text
/-- The text below a list of nodes. -/
def Node.text_list : List Node → Bytes
  | [] => []
  | n :: ns => n.text_below ++ Node.text_list ns
end

/-- Modelled from the spec: the lexbor library of sections 4.2 and 4.3, in
which no call reports a failure, `tree` is the document the parser builds,
the class lookup is `Element.walk` and the text is `Element.text`. -/
def lexbor_spec (tree : Bytes → Document) : Lexbor where
  parser_init := LXB_STATUS_OK
  chunk_begin := true
  chunk_process := fun _ => LXB_STATUS_OK
  chunk_end := fun _ => LXB_STATUS_OK
  tree := tree
  elements_by_class_name := fun root col class_name =>
    (LXB_STATUS_OK, root.walk class_name col)
  node_text_content := fun e => (e.text, e.text.length)

/-! ## curl_client -/

/-- The type `CURLcode`. -/
abbrev CURLcode := Nat

/-- The code `CURLE_OK`. -/
def CURLE_OK : CURLcode := 0

/-- The code `CURLE_WRITE_ERROR`. -/
def CURLE_WRITE_ERROR : CURLcode := 23

/-- The value `(size_t)-1`. -/
def SIZE_MAX : Nat := 2 ^ 64 - 1

/-- One invocation of the write function by libcurl: the data pointed to and
the two size arguments. -/
structure Block where
  data : Bytes
  len : Nat
  num : Nat
  deriving DecidableEq, Repr

/-- The libcurl library and the remote server during one run: whether
`curl_easy_init` gives a handle, the codes of the three `curl_easy_setopt`
calls, the response code `curl_easy_getinfo` reports, the blocks the
transfer offers to the write function in order, and the code the transfer
ends with when no write is refused. -/
structure Curl where
  easy_init : Bool
  setopt_writefunction : CURLcode
  setopt_writedata : CURLcode
  setopt_url : CURLcode
  response_code : Int
  blocks : List Block
  result : CURLcode

/-- The exceptions the program throws. -/
inductive Exception where
  | bad_alloc
  | curl_exception (msg : String) (code : CURLcode)
  | runtime_error (what : String)
  deriving DecidableEq, Repr

/-- The data members of `curl_client` (lines 277-279). -/
structure curl_client where
  m_status_code : Int
  m_buffer : Bytes
  deriving DecidableEq, Repr

/-- The function `curl_exception::fail_if_error` (lines 195-199). -/
def fail_if_error (msg : String) (code : CURLcode) : Except Exception Unit :=
  if code ≠ CURLE_OK then Except.error (Exception.curl_exception msg code)
  else Except.ok ()

/-- The constructor `curl_client()` (lines 211-224). -/
def curl_client.create (C : Curl) : Except Exception curl_client :=
  if C.easy_init = false then Except.error Exception.bad_alloc
  else
    match fail_if_error "failed to set option" C.setopt_writefunction with
    | Except.error e => Except.error e
    | Except.ok _ =>
      match fail_if_error "failed to set option" C.setopt_writedata with
      | Except.error e => Except.error e
      | Except.ok _ => Except.ok ⟨-1, []⟩

/-- The product `len * num` of two `size_t`: it wraps at `2 ^ 64`. -/
def size_mul (len num : Nat) : Nat := (len * num) % 2 ^ 64

/-- The function `curl_client::write_callback` (lines 254-275): the value
returned and the client afterwards.  `copy_n` takes `len * num` characters
from `data`, the product being that of two `size_t`. -/
def curl_client.write_callback (C : Curl) (self : curl_client) (data : Bytes)
    (len num : Nat) : Nat × curl_client :=
  if self.m_status_code < 0 then
    let self1 : curl_client := ⟨C.response_code, self.m_buffer⟩
    if self1.m_status_code ≥ 400 then (SIZE_MAX, self1)
    else (size_mul len num,
      ⟨self1.m_status_code, self1.m_buffer ++ data.take (size_mul len num)⟩)
  else (size_mul len num,
    ⟨self.m_status_code, self.m_buffer ++ data.take (size_mul len num)⟩)

/-- Modelled from the spec: `curl_easy_perform` of libcurl, which is not part
of the repository.  Section 4.1: the body arrives through the write function,
and a write the function refuses (a return value other than the size offered,
the number of characters of the block) is "signaled as a write-callback
abort, which the transport surfaces as a non-success completion code". -/
def curl_easy_perform (C : Curl) : List Block → curl_client → CURLcode × curl_client
  | [], self => (C.result, self)
  | b :: bs, self =>
      let r := curl_client.write_callback C self b.data b.len b.num
      if r.1 ≠ b.data.length then (CURLE_WRITE_ERROR, r.2)
      else curl_easy_perform C bs r.2

/-- The function `curl_client::fetch` (lines 229-251): the value returned,
the client and `buffer` afterwards.  `std::move` through a `back_inserter`
puts the characters of `m_buffer` after those `buffer` holds. -/
def curl_client.fetch (C : Curl) (self : curl_client) (_url : String) (buffer : Bytes) :
    Except Exception (Int × curl_client × Bytes) :=
  let self1 : curl_client := ⟨self.m_status_code, []⟩
  match fail_if_error "failed to set URL" C.setopt_url with
  | Except.error e => Except.error e
  | Except.ok _ =>
    let r := curl_easy_perform C C.blocks self1
    if r.1 = CURLE_OK then Except.ok (Int.ofNat r.1, r.2, buffer ++ r.2.m_buffer)
    else Except.ok (Int.ofNat r.1, r.2, buffer)

/-! ## parse_document -/

/-- A `std::istringstream`: the characters not read yet and the fail bit. -/
structure istringstream where
  rest : Bytes
  failbit : Bool
  deriving DecidableEq, Repr

/-- The call `input.read(s, n)` followed by the conversion of the stream to
`bool`: the stream and the destination afterwards, and whether the stream is
good.  When fewer than `n` characters are left they are all extracted and the
fail bit is set. -/
def istringstream.read (input : istringstream) (s : Bytes) (n : Nat) :
    istringstream × Bytes × Bool :=
  if input.failbit then (input, s, false)
  else if n ≤ input.rest.length then
    (⟨input.rest.drop n, false⟩, input.rest.take n ++ s.drop n, true)
  else (⟨[], true⟩, input.rest ++ s.drop input.rest.length, false)

/-- An `lxb_html_parser_t`: its status and the chunks
`lxb_html_parse_chunk_process` received, in call order. -/
structure lxb_html_parser_t where
  status : lxb_status_t
  chunks : List Bytes
  deriving DecidableEq, Repr

/-- The call `lxb_html_parse_chunk_process(parser, html, size)`. -/
def lxb_html_parse_chunk_process (L : Lexbor) (parser : lxb_html_parser_t) (html : Bytes)
    (size : Nat) : lxb_html_parser_t :=
  let chunks := parser.chunks ++ [html.take size]
  ⟨L.chunk_process chunks.flatten, chunks⟩

/-- The call `lxb_html_parse_chunk_end(parser)`. -/
def lxb_html_parse_chunk_end (L : Lexbor) (parser : lxb_html_parser_t) : lxb_html_parser_t :=
  ⟨L.chunk_end parser.chunks.flatten, parser.chunks⟩

/-- The size of `buffer` in `parse_document` (line 320). -/
def chunk_size : Nat := 4096

/-- The loop of `parse_document` (lines 321-330): the parser and
`chunk_counter` when the loop is left. -/
def parse_chunks (L : Lexbor) (input : istringstream) (buffer : Bytes)
    (parser : lxb_html_parser_t) (chunk_counter : Nat) :
    Except Exception (lxb_html_parser_t × Nat) :=
  if h : (input.read buffer chunk_size).2.2 = true then
    let parser1 := lxb_html_parse_chunk_process L parser
      (input.read buffer chunk_size).2.1 chunk_size
    if parser1.status ≠ LXB_STATUS_OK then
      Except.error (Exception.runtime_error "chunk process failed")
    else
      parse_chunks L (input.read buffer chunk_size).1 (input.read buffer chunk_size).2.1
        parser1 (chunk_counter + 1)
  else Except.ok (parser, chunk_counter)
termination_by input.rest.length
decreasing_by
  simp only [istringstream.read, chunk_size] at h ⊢
  split at h
  · simp at h
  · split at h
    · rename_i h1 h2
      simp only [h1, h2, if_true, List.length_drop]
      simp
      omega
    · simp at h

/-- The function `parse_document` up to its `return` (lines 308-337): the
parser when the input has been processed. -/
def parse_document_state (L : Lexbor) (input : Bytes) : Except Exception lxb_html_parser_t :=
  if L.parser_init ≠ LXB_STATUS_OK then
    Except.error (Exception.runtime_error "failed to initialize parser")
  else if L.chunk_begin = false then
    Except.error (Exception.runtime_error "failed to create document")
  else
    match parse_chunks L ⟨input, false⟩ (List.replicate chunk_size (Char.ofNat 0))
        ⟨LXB_STATUS_OK, []⟩ 0 with
    | Except.error e => Except.error e
    | Except.ok r =>
      let parser1 := lxb_html_parse_chunk_end L r.1
      if parser1.status ≠ LXB_STATUS_OK then
        Except.error (Exception.runtime_error "chunk finalization failed")
      else Except.ok parser1

/-- The function `parse_document` (lines 305-340): the document built from
the chunks the parser received. -/
def parse_document (L : Lexbor) (input : Bytes) : Except Exception Document :=
  match parse_document_state L input with
  | Except.error e => Except.error e
  | Except.ok parser => Except.ok (L.tree parser.chunks.flatten)

/-! ## main -/

/-- How a run ends: `return` from `main`, `std::exit`, an exception nothing
catches, or a fault. -/
inductive Outcome where
  | returned (code : Int)
  | exit (code : Int)
  | uncaught (e : Exception)
  | fault (f : Fault)
  deriving DecidableEq, Repr

/-- What a run does to the output file: the `std::ofstream` is never
constructed; it is constructed and the file does not open; the file is opened
and the run ends before the document is complete; the file is opened and
these characters are written to it. -/
inductive FileEffect where
  | untouched
  | open_failed
  | opened_incomplete
  | written (data : Bytes)
  deriving DecidableEq, Repr

/-- What is observed of a run of `main`: the argument `parse_document` was
called with, when it was called; the effect on the output file; how the run
ended. -/
structure Run where
  parsed : Option Bytes
  file : FileEffect
  outcome : Outcome
  deriving DecidableEq, Repr

/-- The surroundings of a run: libcurl and the server, lexbor, and which
files open for writing. -/
structure Env where
  curl : Curl
  lexbor : Lexbor
  can_open : String → Bool

/-- The loop over `ingredients` (lines 462-471), on the stream. -/
def main_write_ingredients (L : Lexbor) : List Element → Bytes → Except Fault Bytes
  | [], output_file => Except.ok output_file
  | ingredient :: rest, output_file =>
    let quantity := find_element_by_class_name L ingredient "ingredient__quantity"
    let label := find_element_by_class_name L ingredient "ingredient__label"
    let o1 := output_file ++ "<tr><td>".toList
    match text_content L quantity with
    | Except.error f => Except.error f
    | Except.ok q =>
      let o2 := o1 ++ q ++ "</td><td>".toList
      match text_content L label with
      | Except.error f => Except.error f
      | Except.ok l => main_write_ingredients L rest (o2 ++ l ++ "</td></tr>".toList)

/-- The loop over `instructions` (lines 482-486), on the stream. -/
def main_write_instructions (L : Lexbor) : List Element → Bytes → Except Fault Bytes
  | [], output_file => Except.ok output_file
  | instruction :: rest, output_file =>
    let o1 := output_file ++ "<li>".toList
    match text_content L (some instruction) with
    | Except.error f => Except.error f
    | Except.ok d => main_write_instructions L rest (o1 ++ d ++ "</li>".toList)

/-- The ingredient block of `main` (lines 456-473), on the stream. -/
def main_write_table (L : Lexbor) (content_root : Element) (output_file : Bytes) :
    Except Fault Bytes :=
  let ingredient_list := find_element_by_class_name L content_root "ingredients-list"
  match ingredient_list with
  | some il =>
    let o1 := output_file ++ "<table>".toList
    let ingredients := find_elements_by_class_name L il "ingredient" 10
    match main_write_ingredients L ingredients.m_elements o1 with
    | Except.error f => Except.error f
    | Except.ok o2 => Except.ok (o2 ++ "</table>".toList)
  | none => Except.ok output_file

/-- The directions block of `main` (lines 475-488), on the stream. -/
def main_write_directions (L : Lexbor) (content_root : Element) (output_file : Bytes) :
    Except Fault Bytes :=
  let o1 := output_file ++ "<h2>Directions</h2>".toList
  let instruction_list := find_element_by_class_name L content_root "recipe__directions__list"
  match instruction_list with
  | some il =>
    let o2 := o1 ++ "<ol>".toList
    let instructions := find_elements_by_class_name L il "recipe__direction__text" 10
    match main_write_instructions L instructions.m_elements o2 with
    | Except.error f => Except.error f
    | Except.ok o3 => Except.ok (o3 ++ "</ol>".toList)
  | none => Except.ok o1

/-- The writing part of `main` (lines 446-492): the characters put on
`output_file`, operand by operand from left to right. -/
def main_write (L : Lexbor) (doc : Document) (content_root : Element) (url : String)
    (output_file : Bytes) : Except Fault Bytes :=
  let title := find_element_by_class_name_doc L doc "recipe-header__title"
  let o1 := output_file ++ "<html><head><meta charset=utf-8><title>".toList
  match text_content L title with
  | Except.error f => Except.error f
  | Except.ok t1 =>
    let o2 := o1 ++ t1 ++ "</title></head><body><h1>".toList
    match text_content L title with
    | Except.error f => Except.error f
    | Except.ok t2 =>
      let o3 := o2 ++ t2 ++ "</h1><h2>Ingredients</h2>".toList
      match main_write_table L content_root o3 with
      | Except.error f => Except.error f
      | Except.ok o4 =>
        match main_write_directions L content_root o4 with
        | Except.error f => Except.error f
        | Except.ok o5 =>
          Except.ok (o5 ++ "<p><i>Extracted from ".toList ++ url.toList
            ++ "</i></p></body></html>".toList)

/-- The function `main` from the parsed document on (lines 427-494); `html`
is what `parse_document` was called with. -/
def main_document (env : Env) (html : Bytes) (doc : Document) (url output_filename : String) :
    Run :=
  match find_element_by_class_name_doc env.lexbor doc "recipe__text__content" with
  | none => ⟨some html, FileEffect.untouched, Outcome.exit (-1)⟩
  | some content_root =>
    if env.can_open output_filename = false then
      ⟨some html, FileEffect.open_failed, Outcome.exit (-1)⟩
    else
      match main_write env.lexbor doc content_root url [] with
      | Except.error f => ⟨some html, FileEffect.opened_incomplete, Outcome.fault f⟩
      | Except.ok out => ⟨some html, FileEffect.written out, Outcome.returned 0⟩

/-- The function `main` (lines 399-495) once `parse_arguments` has given the
URL and the name of the output file. -/
def main (env : Env) (url output_filename : String) : Run :=
  match curl_client.create env.curl with
  | Except.error e => ⟨none, FileEffect.untouched, Outcome.uncaught e⟩
  | Except.ok client =>
    match client.fetch env.curl url [] with
    | Except.error e => ⟨none, FileEffect.untouched, Outcome.uncaught e⟩
    | Except.ok r =>
      if r.1 ≠ 0 then ⟨none, FileEffect.untouched, Outcome.exit (-1)⟩
      else
        match parse_document env.lexbor r.2.2 with
        | Except.error e => ⟨some r.2.2, FileEffect.untouched, Outcome.uncaught e⟩
        | Except.ok doc => main_document env r.2.2 doc url output_filename

/-! ## The output the specification describes -/

/-- One table row of section 4.4: two cells, quantity and label. -/
def spec_row (q l : Bytes) : Bytes :=
  "<tr><td>".toList ++ q ++ "</td><td>".toList ++ l ++ "</td></tr>".toList

/-- One list item of section 4.4. -/
def spec_item (d : Bytes) : Bytes :=
  "<li>".toList ++ d ++ "</li>".toList

/-- The table of section 4.4, present only when an ingredient list root is
found: `rows` are the quantity and label texts, row by row. -/
def spec_table : Option (List (Bytes × Bytes)) → Bytes
  | none => []
  | some rows =>
    "<table>".toList ++ (rows.map (fun r => spec_row r.1 r.2)).flatten ++ "</table>".toList

/-- The numbered list of section 4.4, present only when a directions list
root is found. -/
def spec_list : Option (List Bytes) → Bytes
  | none => []
  | some items => "<ol>".toList ++ (items.map spec_item).flatten ++ "</ol>".toList

/-- The rendered document of section 4.4 in its fixed order: head with the
title, heading with the title repeated, the ingredients heading and table,
the directions heading and list, the attribution line. -/
def spec_output (title : Bytes) (rows : Option (List (Bytes × Bytes)))
    (items : Option (List Bytes)) (url : String) : Bytes :=
  "<html><head><meta charset=utf-8><title>".toList ++ title
    ++ "</title></head><body><h1>".toList ++ title
    ++ "</h1><h2>Ingredients</h2>".toList
    ++ spec_table rows
    ++ "<h2>Directions</h2>".toList
    ++ spec_list items
    ++ "<p><i>Extracted from ".toList ++ url.toList ++ "</i></p></body></html>".toList

/-- The text of the first element with class `class_name` that the lookup
from `root` finds, when it finds one. -/
def first_text (L : Lexbor) (root : Element) (class_name : String) : Option Bytes :=
  (find_element_by_class_name L root class_name).map (element_text L)

/-- The quantity and label texts of a list of rows, in order; there is a
value only when every row has a quantity element and a label element. -/
def spec_rows (L : Lexbor) : List Element → Option (List (Bytes × Bytes))
  | [] => some []
  | row :: rest =>
    match first_text L row "ingredient__quantity", first_text L row "ingredient__label",
        spec_rows L rest with
    | some q, some l, some rs => some ((q, l) :: rs)
    | _, _, _ => none

/-- The rows of the table for a content root: `some none` when no ingredient
list root is found, `some (some rows)` when one is found and every element
of `find_all(ingredient list root, "ingredient")` has both cells. -/
def spec_table_rows (L : Lexbor) (content_root : Element) :
    Option (Option (List (Bytes × Bytes))) :=
  match find_element_by_class_name L content_root "ingredients-list" with
  | none => some none
  | some il =>
    (spec_rows L (find_elements_by_class_name L il "ingredient" 10).m_elements).map some

/-- The direction texts for a content root: none when no directions list root
is found, else the text of each element of
`find_all(directions root, "recipe__direction__text")` in order. -/
def spec_direction_items (L : Lexbor) (content_root : Element) : Option (List Bytes) :=
  (find_element_by_class_name L content_root "recipe__directions__list").map
    (fun il =>
      (find_elements_by_class_name L il "recipe__direction__text" 10).m_elements.map
        (element_text L))

/-! ## Example inputs -/

/-- The ingredient list of the end-to-end scenario of section 8. -/
def soup_ingredients : Element :=
  .mk "div" ["ingredients-list"]
    [.element (.mk "div" ["ingredient"]
      [.element (.mk "span" ["ingredient__quantity"] [.text "2 cups".toList]),
       .element (.mk "span" ["ingredient__label"] [.text "water".toList])])]

/-- The directions list of the end-to-end scenario of section 8. -/
def soup_directions : Element :=
  .mk "ol" ["recipe__directions__list"]
    [.element (.mk "li" ["recipe__direction__text"] [.text "Boil it.".toList])]

/-- The content root of the scenario, with the given title text and with or
without the ingredient list. -/
def soup_content (title : Bytes) (with_ingredients : Bool) : Element :=
  .mk "div" ["recipe__text__content"]
    (.element (.mk "div" ["recipe-header__title"] [.text title])
      :: (if with_ingredients then [.element soup_ingredients] else [])
      ++ [.element soup_directions])

/-- A document around an element: `html`, an empty `head`, and a `body` that
holds the element. -/
def document_of (e : Element) : Document :=
  ⟨.mk "html" [] [.element (.mk "head" [] []), .element (.mk "body" [] [.element e])]⟩

/-- The document of the end-to-end scenario of section 8. -/
def soup_document : Document := document_of (soup_content "Soup".toList true)

/-- A document with a content root and no title element. -/
def untitled_document : Document :=
  document_of (.mk "div" ["recipe__text__content"] [.element soup_directions])

/-- A document with no content root. -/
def bare_document : Document := document_of (.mk "p" [] [.text "hello".toList])

/-- A server that answers with the given response code and blocks, and a
libcurl in which every call succeeds. -/
def curl_of (response_code : Int) (blocks : List Block) : Curl where
  easy_init := true
  setopt_writefunction := CURLE_OK
  setopt_writedata := CURLE_OK
  setopt_url := CURLE_OK
  response_code := response_code
  blocks := blocks
  result := CURLE_OK

/-- A lexbor in which the lookup reports a failure after filling in one
element. -/
def lexbor_failing_lookup : Lexbor where
  parser_init := LXB_STATUS_OK
  chunk_begin := true
  chunk_process := fun _ => LXB_STATUS_OK
  chunk_end := fun _ => LXB_STATUS_OK
  tree := fun _ => bare_document
  elements_by_class_name := fun root col _ => (1, col ++ [root])
  node_text_content := fun e => (e.text, e.text.length)

/-- Surroundings in which the server answers with the given response code and
blocks, every input builds the document `doc`, and the output file opens or
not. -/
def env_of (response_code : Int) (blocks : List Block) (doc : Document) (opens : Bool) : Env where
  curl := curl_of response_code blocks
  lexbor := lexbor_spec (fun _ => doc)
  can_open := fun _ => opens

/-! ## Searching the output for a table tag -/

theorem element_collection.push_range (data : List Element) :
    ∀ n, n ≤ data.length →
      (List.range n).foldl (element_collection.push_idx data) [] = data.take n := by
  intro n
  induction n with
  | zero => intro _; simp
  | succ k ih =>
    intro hk
    have hk2 : k < data.length := by omega
    rw [List.range_succ, List.foldl_append, ih (by omega), List.take_succ]
    simp only [List.foldl_cons, List.foldl_nil, element_collection.push_idx,
      lxb_dom_collection_element, List.getElem?_eq_getElem hk2, Option.toList]

theorem element_collection.of_raw_elements (data : List Element) :
    (element_collection.of_raw data).m_elements = data := by
  simp [element_collection.of_raw, lxb_dom_collection_length,
    element_collection.push_range data data.length (le_refl _)]

theorem find_elements_eq (L : Lexbor) (root : Element) (class_name : String) (size_hint : Nat) :
    (find_elements_by_class_name L root class_name size_hint).m_elements
      = if (L.elements_by_class_name root [] class_name).1 = LXB_STATUS_OK
        then (L.elements_by_class_name root [] class_name).2 else [] := by
  unfold find_elements_by_class_name lxb_dom_collection_make
  by_cases h : (L.elements_by_class_name root [] class_name).1 = LXB_STATUS_OK
  · simp [h, element_collection.of_raw_elements]
  · simp [h, element_collection.empty_collection]

theorem find_element_eq_head (L : Lexbor) (root : Element) (class_name : String) :
    find_element_by_class_name L root class_name
      = (find_elements_by_class_name L root class_name 10).m_elements.head? := by
  unfold find_element_by_class_name
  simp only []
  split
  · rename_i h
    have hpos : 0 < (find_elements_by_class_name L root class_name 10).m_elements.length := by
      unfold element_collection.empty at h
      exact List.length_pos.mpr (by intro hn; simp [hn] at h)
    rw [List.head?_eq_getElem?, List.getElem?_eq_getElem hpos]
    simp [element_collection.at]
  · rename_i h
    unfold element_collection.empty at h
    cases hl : (find_elements_by_class_name L root class_name 10).m_elements with
    | nil => rfl
    | cons a t => simp [hl] at h

mutual
theorem Element.walk_subtree (class_name : String) :
    ∀ (e : Element) (col : List Element),
      e.walk class_name col
        = col ++ e.subtree.filter (fun x => decide (class_name ∈ x.class_tokens))
  | .mk n c ch, col => by
    rw [Element.walk, Element.subtree, Node.walk_list_eq class_name ch]
    by_cases h : class_name ∈ c <;> simp [h, List.filter_cons, Element.class_tokens]
theorem Node.walk_node_subtree (class_name : String) :
    ∀ (n : Node) (col : List Element),
      n.walk class_name col
        = col ++ n.subtree.filter (fun x => decide (class_name ∈ x.class_tokens))
  | .text _, col => by simp [Node.walk, Node.subtree]
  | .element e, col => by rw [Node.walk, Node.subtree, Element.walk_subtree class_name e]
theorem Node.walk_list_eq (class_name : String) :
    ∀ (ns : List Node) (col : List Element),
      Node.walk_list class_name ns col
        = col ++ (Node.subtree_list ns).filter (fun x => decide (class_name ∈ x.class_tokens))
  | [], col => by simp [Node.walk_list, Node.subtree_list]
  | n :: ns, col => by
    rw [Node.walk_list, Node.subtree_list, Node.walk_list_eq class_name ns,
      Node.walk_node_subtree class_name n]
    simp
end

/-- With the lookup of section 4.3, the first-match lookup finds nothing when
no element of the subtree of `root` carries the class. -/
theorem find_element_spec_absent (tree : Bytes → Document) (root : Element)
    (class_name : String)
    (h : ∀ e ∈ root.subtree, class_name ∉ e.class_tokens) :
    find_element_by_class_name (lexbor_spec tree) root class_name = none := by
  rw [find_element_eq_head, find_elements_eq]
  have hf : root.subtree.filter (fun e => decide (class_name ∈ e.class_tokens)) = [] := by
    rw [List.filter_eq_nil_iff]
    intro e he
    simpa using h e he
  simp [lexbor_spec, Element.walk_subtree, hf]

/-! ## Lemmas on parse_document -/

theorem istringstream.read_full (rest s : Bytes) (n : Nat) (h : n ≤ rest.length) :
    istringstream.read ⟨rest, false⟩ s n
      = (⟨rest.drop n, false⟩, rest.take n ++ s.drop n, true) := by
  simp [istringstream.read, h]

theorem istringstream.read_short (rest s : Bytes) (n : Nat) (h : rest.length < n) :
    (istringstream.read ⟨rest, false⟩ s n).2.2 = false := by
  have h2 : ¬ n ≤ rest.length := by omega
  simp [istringstream.read, h2]

theorem parse_chunks_short (L : Lexbor) (rest buffer : Bytes) (parser : lxb_html_parser_t)
    (chunk_counter : Nat) (h : rest.length < chunk_size) :
    parse_chunks L ⟨rest, false⟩ buffer parser chunk_counter
      = Except.ok (parser, chunk_counter) := by
  rw [parse_chunks]
  simp [istringstream.read_short rest buffer chunk_size h]

theorem parse_chunks_full (L : Lexbor) (rest buffer : Bytes) (parser : lxb_html_parser_t)
    (chunk_counter : Nat) (h : chunk_size ≤ rest.length) :
    parse_chunks L ⟨rest, false⟩ buffer parser chunk_counter
      = if L.chunk_process ((parser.chunks ++ [rest.take chunk_size]).flatten) ≠ LXB_STATUS_OK
        then Except.error (Exception.runtime_error "chunk process failed")
        else parse_chunks L ⟨rest.drop chunk_size, false⟩
          (rest.take chunk_size ++ buffer.drop chunk_size)
          ⟨L.chunk_process ((parser.chunks ++ [rest.take chunk_size]).flatten),
            parser.chunks ++ [rest.take chunk_size]⟩ (chunk_counter + 1) := by
  have ht : (rest.take chunk_size ++ buffer.drop chunk_size).take chunk_size
      = rest.take chunk_size := by
    rw [List.take_append_of_le_length (by simp [h])]
    simp
  rw [parse_chunks]
  simp only [istringstream.read_full rest buffer chunk_size h, lxb_html_parse_chunk_process, ht]
  simp

/-- The characters of the whole chunks of a body: the longest prefix whose
length is a multiple of `chunk_size`. -/
theorem whole_chunks_step (rest : Bytes) (h : chunk_size ≤ rest.length) :
    rest.take (chunk_size * (rest.length / chunk_size))
      = rest.take chunk_size
        ++ (rest.drop chunk_size).take
            (chunk_size * ((rest.drop chunk_size).length / chunk_size)) := by
  have hpos : 0 < chunk_size := by decide
  have hd : rest.length / chunk_size = (rest.length - chunk_size) / chunk_size + 1 :=
    Nat.div_eq_sub_div hpos h
  rw [List.length_drop, hd, Nat.mul_add, Nat.mul_one, Nat.add_comm, List.take_add]

theorem parse_chunks_flatten (L : Lexbor) :
    ∀ (n : Nat) (rest buffer : Bytes) (parser : lxb_html_parser_t) (chunk_counter : Nat)
      (r : lxb_html_parser_t × Nat),
      rest.length = n →
      parse_chunks L ⟨rest, false⟩ buffer parser chunk_counter = Except.ok r →
      r.1.chunks.flatten
        = parser.chunks.flatten ++ rest.take (chunk_size * (rest.length / chunk_size)) := by
  intro n
  induction n using Nat.strong_induction_on with
  | _ n ih =>
    intro rest buffer parser chunk_counter r hn hr
    by_cases h : rest.length < chunk_size
    · rw [parse_chunks_short L rest buffer parser chunk_counter h] at hr
      have h0 : rest.length / chunk_size = 0 := Nat.div_eq_of_lt h
      cases hr
      simp [h0]
    · have hge : chunk_size ≤ rest.length := by omega
      rw [parse_chunks_full L rest buffer parser chunk_counter hge] at hr
      split at hr
      · cases hr
      · have hlt : (rest.drop chunk_size).length < n := by
          have hpos : 0 < chunk_size := by decide
          rw [List.length_drop]; omega
        have := ih _ hlt _ _ _ _ r rfl hr
        rw [this, whole_chunks_step rest hge]
        simp

theorem parse_chunks_take (L : Lexbor) :
    ∀ (n : Nat) (rest buffer : Bytes) (parser : lxb_html_parser_t) (chunk_counter : Nat),
      rest.length = n →
      parse_chunks L ⟨rest, false⟩ buffer parser chunk_counter
        = parse_chunks L ⟨rest.take (chunk_size * (rest.length / chunk_size)), false⟩
            buffer parser chunk_counter := by
  intro n
  induction n using Nat.strong_induction_on with
  | _ n ih =>
    intro rest buffer parser chunk_counter hn
    by_cases h : rest.length < chunk_size
    · have h0 : rest.length / chunk_size = 0 := Nat.div_eq_of_lt h
      rw [parse_chunks_short L rest buffer parser chunk_counter h, h0, Nat.mul_zero,
        List.take_zero, parse_chunks_short L [] buffer parser chunk_counter (by decide)]
    · have hge : chunk_size ≤ rest.length := by omega
      have hpos : 0 < chunk_size := by decide
      have hk : 1 ≤ rest.length / chunk_size := (Nat.one_le_div_iff hpos).mpr hge
      have hmul : chunk_size ≤ chunk_size * (rest.length / chunk_size) :=
        Nat.le_mul_of_pos_right _ hk
      have hle : chunk_size * (rest.length / chunk_size) ≤ rest.length :=
        Nat.mul_div_le _ _
      have hge2 : chunk_size ≤ (rest.take (chunk_size * (rest.length / chunk_size))).length := by
        rw [List.length_take]; omega
      have htt : (rest.take (chunk_size * (rest.length / chunk_size))).take chunk_size
          = rest.take chunk_size := by
        rw [List.take_take, Nat.min_eq_left hmul]
      have hdt : (rest.take (chunk_size * (rest.length / chunk_size))).drop chunk_size
          = (rest.drop chunk_size).take
              (chunk_size * ((rest.drop chunk_size).length / chunk_size)) := by
        rw [whole_chunks_step rest hge, List.drop_append_of_le_length (by simp [hge])]
        simp [List.length_take, hge]
      have hlt : (rest.drop chunk_size).length < n := by
        rw [List.length_drop]; omega
      rw [parse_chunks_full L rest buffer parser chunk_counter hge,
        parse_chunks_full L _ buffer parser chunk_counter hge2, htt, hdt]
      split
      · rfl
      · exact ih _ hlt _ _ _ _ rfl

theorem parse_document_state_take (L : Lexbor) (body : Bytes) :
    parse_document_state L body
      = parse_document_state L (body.take (chunk_size * (body.length / chunk_size))) := by
  unfold parse_document_state
  rw [parse_chunks_take L body.length body _ _ _ rfl]

theorem parse_document_state_flatten (L : Lexbor) (body : Bytes) (parser : lxb_html_parser_t)
    (h : parse_document_state L body = Except.ok parser) :
    parser.chunks.flatten = body.take (chunk_size * (body.length / chunk_size)) := by
  unfold parse_document_state at h
  split at h
  · cases h
  · split at h
    · cases h
    · split at h
      · cases h
      · rename_i r hr
        have := parse_chunks_flatten L body.length body _ _ _ r rfl hr
        simp only []  at h
        split at h
        · cases h
        · cases h
          simpa [lxb_html_parse_chunk_end] using this

theorem parse_chunks_spec_ok (tree : Bytes → Document) :
    ∀ (n : Nat) (rest buffer : Bytes) (parser : lxb_html_parser_t) (chunk_counter : Nat),
      rest.length = n →
      ∃ r, parse_chunks (lexbor_spec tree) ⟨rest, false⟩ buffer parser chunk_counter
        = Except.ok r := by
  intro n
  induction n using Nat.strong_induction_on with
  | _ n ih =>
    intro rest buffer parser chunk_counter hn
    by_cases h : rest.length < chunk_size
    · exact ⟨_, parse_chunks_short _ rest buffer parser chunk_counter h⟩
    · have hge : chunk_size ≤ rest.length := by omega
      have hpos : 0 < chunk_size := by decide
      have hlt : (rest.drop chunk_size).length < n := by
        rw [List.length_drop]; omega
      rw [parse_chunks_full _ rest buffer parser chunk_counter hge]
      simp only [lexbor_spec, ne_eq, not_true_eq_false, if_false]
      exact ih _ hlt _ _ _ _ rfl

theorem parse_document_state_spec_ok (tree : Bytes → Document) (body : Bytes) :
    ∃ chunks, parse_document_state (lexbor_spec tree) body = Except.ok ⟨LXB_STATUS_OK, chunks⟩
      ∧ chunks.flatten = body.take (chunk_size * (body.length / chunk_size)) := by
  obtain ⟨r, hr⟩ := parse_chunks_spec_ok tree body.length body
    (List.replicate chunk_size (Char.ofNat 0)) ⟨LXB_STATUS_OK, []⟩ 0 rfl
  have hp : parse_document_state (lexbor_spec tree) body
      = Except.ok ⟨LXB_STATUS_OK, r.1.chunks⟩ := by
    unfold parse_document_state
    rw [hr]
    simp [lexbor_spec, lxb_html_parse_chunk_end]
  exact ⟨r.1.chunks, hp, parse_document_state_flatten _ body ⟨LXB_STATUS_OK, r.1.chunks⟩ hp⟩

theorem parse_document_short (L : Lexbor) (body : Bytes) (h : body.length < chunk_size)
    (hi : L.parser_init = LXB_STATUS_OK) (hb : L.chunk_begin = true)
    (he : L.chunk_end [] = LXB_STATUS_OK) :
    parse_document L body = Except.ok (L.tree []) := by
  unfold parse_document parse_document_state
  rw [parse_chunks_short L body _ _ _ h]
  simp [hi, hb, he, lxb_html_parse_chunk_end]

/-! ## Lemmas on curl_client -/

theorem write_callback_below_400 (C : Curl) (self : curl_client) (data : Bytes) (len num : Nat)
    (h : C.response_code < 400) :
    (curl_client.write_callback C self data len num).1 = size_mul len num
      ∧ (curl_client.write_callback C self data len num).2.m_buffer
          = self.m_buffer ++ data.take (size_mul len num) := by
  unfold curl_client.write_callback
  have h2 : ¬ C.response_code ≥ 400 := by omega
  by_cases hs : self.m_status_code < 0 <;> simp [hs, h2]

theorem size_mul_of_lt (len num : Nat) (h : len * num < 2 ^ 64) :
    size_mul len num = len * num := by
  unfold size_mul
  exact Nat.mod_eq_of_lt h

theorem curl_easy_perform_below_400 (C : Curl) (h : C.response_code < 400) :
    ∀ (blocks : List Block) (self : curl_client),
      (∀ b ∈ blocks, b.data.length = b.len * b.num ∧ b.len * b.num < 2 ^ 64) →
      (curl_easy_perform C blocks self).1 = C.result
        ∧ (curl_easy_perform C blocks self).2.m_buffer
            = self.m_buffer ++ (blocks.map Block.data).flatten := by
  intro blocks
  induction blocks with
  | nil => intro self _; simp [curl_easy_perform]
  | cons b bs ih =>
    intro self hwf
    have hb := hwf b (List.mem_cons_self _ _)
    have hbs : ∀ x ∈ bs, x.data.length = x.len * x.num ∧ x.len * x.num < 2 ^ 64 :=
      fun x hx => hwf x (List.mem_cons_of_mem _ hx)
    have hw := write_callback_below_400 C self b.data b.len b.num h
    have hm : size_mul b.len b.num = b.data.length := by
      rw [size_mul_of_lt _ _ hb.2, hb.1]
    rw [hm] at hw
    simp only [curl_easy_perform, hw.1, ne_eq, not_true_eq_false, if_false]
    refine ⟨(ih _ hbs).1, ?_⟩
    rw [(ih _ hbs).2, hw.2]
    simp

/-- A successful transfer leaves in `buffer` what it held on entry followed
by the blocks in delivery order. -/
theorem fetch_appends (C : Curl) (self : curl_client) (url : String) (buffer : Bytes)
    (hurl : C.setopt_url = CURLE_OK) (hres : C.result = CURLE_OK)
    (hcode : C.response_code < 400)
    (hwf : ∀ b ∈ C.blocks, b.data.length = b.len * b.num ∧ b.len * b.num < 2 ^ 64) :
    ∃ client, curl_client.fetch C self url buffer
      = Except.ok (0, client, buffer ++ (C.blocks.map Block.data).flatten) := by
  have hp := curl_easy_perform_below_400 C hcode C.blocks ⟨self.m_status_code, []⟩ hwf
  refine ⟨(curl_easy_perform C C.blocks ⟨self.m_status_code, []⟩).2, ?_⟩
  simp [curl_client.fetch, fail_if_error, hurl, hp.1, hres, hp.2, CURLE_OK]

/-- The product of the two sizes wraps: with `len = num = 2 ^ 32` the write
function copies nothing and returns 0. -/
theorem write_callback_wraps (C : Curl) (data : Bytes) :
    curl_client.write_callback C ⟨200, []⟩ data (2 ^ 32) (2 ^ 32) = (0, ⟨200, []⟩) := by
  have h : size_mul (2 ^ 32) (2 ^ 32) = 0 := by decide
  unfold curl_client.write_callback
  rw [h]
  simp

theorem write_callback_refuses (C : Curl) (buffer data : Bytes) (len num : Nat)
    (h : 400 ≤ C.response_code) :
    curl_client.write_callback C ⟨-1, buffer⟩ data len num
      = (SIZE_MAX, ⟨C.response_code, buffer⟩) := by
  simp [curl_client.write_callback, h]

/-- A response with status 400 or more and at least one block: the first
invocation of the write function refuses the block, `fetch` gives a code
other than 0, and `main` leaves through `std::exit(-1)` with no call of
`parse_document` and no output file. -/
theorem main_http_error (env : Env) (url output_filename : String) (b : Block)
    (bs : List Block)
    (hinit : env.curl.easy_init = true)
    (hwf : env.curl.setopt_writefunction = CURLE_OK)
    (hwd : env.curl.setopt_writedata = CURLE_OK)
    (hurl : env.curl.setopt_url = CURLE_OK)
    (hcode : 400 ≤ env.curl.response_code)
    (hblocks : env.curl.blocks = b :: bs)
    (hsize : b.data.length ≠ SIZE_MAX) :
    main env url output_filename = ⟨none, FileEffect.untouched, Outcome.exit (-1)⟩ := by
  have hsize2 : ¬ SIZE_MAX = b.data.length := fun h => hsize h.symm
  simp [main, curl_client.create, curl_client.fetch, fail_if_error, hinit, hwf, hwd, hurl,
    hblocks, curl_easy_perform, write_callback_refuses env.curl [] b.data b.len b.num hcode,
    hsize2, CURLE_OK, CURLE_WRITE_ERROR]

/-! ## Lemmas on the writing part of main -/

theorem main_write_instructions_eq (L : Lexbor) :
    ∀ (instructions : List Element) (output_file : Bytes),
      main_write_instructions L instructions output_file
        = Except.ok (output_file
            ++ ((instructions.map (element_text L)).map spec_item).flatten) := by
  intro instructions
  induction instructions with
  | nil => intro o; simp [main_write_instructions]
  | cons i rest ih =>
    intro o
    simp [main_write_instructions, text_content, ih, spec_item]

theorem main_write_ingredients_eq (L : Lexbor) :
    ∀ (ingredients : List Element) (rows : List (Bytes × Bytes)) (output_file : Bytes),
      spec_rows L ingredients = some rows →
      main_write_ingredients L ingredients output_file
        = Except.ok (output_file ++ (rows.map (fun r => spec_row r.1 r.2)).flatten) := by
  intro ingredients
  induction ingredients with
  | nil =>
    intro rows o h
    simp [spec_rows] at h
    subst h
    simp [main_write_ingredients]
  | cons i rest ih =>
    intro rows o h
    unfold spec_rows at h
    unfold first_text at h
    cases hq : find_element_by_class_name L i "ingredient__quantity" with
    | none => simp [hq] at h
    | some q =>
      cases hl : find_element_by_class_name L i "ingredient__label" with
      | none => simp [hq, hl] at h
      | some l =>
        cases hr : spec_rows L rest with
        | none => simp [hq, hl, hr] at h
        | some rs =>
          simp [hq, hl, hr] at h
          subst h
          simp [main_write_ingredients, hq, hl, text_content, ih rs _ hr, spec_row]

theorem main_write_table_eq (L : Lexbor) (content_root : Element)
    (rows : Option (List (Bytes × Bytes))) (output_file : Bytes)
    (h : spec_table_rows L content_root = some rows) :
    main_write_table L content_root output_file
      = Except.ok (output_file ++ spec_table rows) := by
  unfold spec_table_rows at h
  unfold main_write_table
  cases hil : find_element_by_class_name L content_root "ingredients-list" with
  | none =>
    simp [hil] at h
    subst h
    simp [spec_table]
  | some il =>
    cases hrs : spec_rows L (find_elements_by_class_name L il "ingredient" 10).m_elements with
    | none => simp [hil, hrs] at h
    | some rs =>
      simp [hil, hrs] at h
      subst h
      simp [main_write_ingredients_eq L _ rs _ hrs, spec_table]

theorem main_write_directions_eq (L : Lexbor) (content_root : Element) (output_file : Bytes) :
    main_write_directions L content_root output_file
      = Except.ok (output_file ++ "<h2>Directions</h2>".toList
          ++ spec_list (spec_direction_items L content_root)) := by
  unfold main_write_directions spec_direction_items
  cases hil : find_element_by_class_name L content_root "recipe__directions__list" with
  | none => simp [spec_list]
  | some il => simp [main_write_instructions_eq, spec_list]

theorem main_write_eq (L : Lexbor) (doc : Document) (content_root title : Element)
    (url : String) (rows : Option (List (Bytes × Bytes)))
    (htitle : find_element_by_class_name_doc L doc "recipe-header__title" = some title)
    (hrows : spec_table_rows L content_root = some rows) :
    main_write L doc content_root url []
      = Except.ok (spec_output (element_text L title) rows
          (spec_direction_items L content_root) url) := by
  unfold main_write
  simp only [htitle, text_content, main_write_table_eq L content_root rows _ hrows,
    main_write_directions_eq, spec_output]
  simp

/-! ## Lemmas on the scan for a table tag -/

/-- C1, evaluated on the code: `parse_document` hands the parser only the
whole 4096-character chunks of the body.  A read that finds fewer than 4096
characters fails the stream and ends the loop, so the characters it extracted
are never processed: every body is parsed as its longest prefix of a multiple
of 4096 characters, a 1-character body reaches the parser as no chunk at all
and gives the document of the empty input, and of a body of 10240 characters
the parser receives the first 8192. -/
theorem parse_document_drops_last_chunk :
    (∀ (L : Lexbor) (body : Bytes),
      parse_document L body
        = parse_document L (body.take (chunk_size * (body.length / chunk_size))))
    ∧ (∀ tree : Bytes → Document,
        parse_document_state (lexbor_spec tree) ['x']
          = Except.ok ⟨LXB_STATUS_OK, []⟩)
    ∧ (∀ tree : Bytes → Document,
        parse_document (lexbor_spec tree) ['x'] = Except.ok (tree []))
    ∧ (∀ tree : Bytes → Document, ∃ chunks,
        parse_document_state (lexbor_spec tree) (List.replicate 10240 'x')
          = Except.ok ⟨LXB_STATUS_OK, chunks⟩
        ∧ chunks.flatten = List.replicate 8192 'x') := by
  refine ⟨?_, ?_, ?_, ?_⟩
  · intro L body
    unfold parse_document
    rw [← parse_document_state_take]
  · intro tree
    unfold parse_document_state
    rw [parse_chunks_short _ ['x'] _ _ _ (by decide)]
    simp [lexbor_spec, lxb_html_parse_chunk_end]
  · intro tree
    exact parse_document_short (lexbor_spec tree) ['x'] (by decide) rfl rfl rfl
  · intro tree
    obtain ⟨chunks, h1, h2⟩ := parse_document_state_spec_ok tree (List.replicate 10240 'x')
    refine ⟨chunks, h1, ?_⟩
    rw [h2, List.length_replicate, List.take_replicate]
    have : min (chunk_size * (10240 / chunk_size)) 10240 = 8192 := by decide
    rw [this]

/-- C2: when the fetch gives 0, the body parses to a document and the lookup
of `recipe__text__content` from the document finds nothing, `main` leaves
through `std::exit(-1)`, a status other than 0, and the `std::ofstream` is
never constructed: the output file is neither opened nor written. -/
theorem main_missing_content_root (env : Env) (url output_filename : String)
    (client : curl_client) (r : Int × curl_client × Bytes) (doc : Document)
    (hcreate : curl_client.create env.curl = Except.ok client)
    (hfetch : client.fetch env.curl url [] = Except.ok r)
    (hzero : r.1 = 0)
    (hparse : parse_document env.lexbor r.2.2 = Except.ok doc)
    (hroot : find_element_by_class_name_doc env.lexbor doc "recipe__text__content" = none) :
    (main env url output_filename).file = FileEffect.untouched
      ∧ (main env url output_filename).outcome = Outcome.exit (-1)
      ∧ Outcome.exit (-1) ≠ Outcome.exit 0
      ∧ Outcome.exit (-1) ≠ Outcome.returned 0 := by
  simp [main, hcreate, hfetch, hzero, hparse, main_document, hroot]

/-- The run on a page without a content root, fetched with status 200 and
parsed: exit with -1, output file untouched. -/
theorem main_missing_content_root_witness :
    find_element_by_class_name_doc (env_of 200 [⟨"<p>hello</p>".toList, 1, 12⟩] bare_document
        true).lexbor bare_document "recipe__text__content" = none
      ∧ (main (env_of 200 [⟨"<p>hello</p>".toList, 1, 12⟩] bare_document true)
          "u" "out.html").file = FileEffect.untouched
      ∧ (main (env_of 200 [⟨"<p>hello</p>".toList, 1, 12⟩] bare_document true)
          "u" "out.html").outcome = Outcome.exit (-1) :=
  have h := main_missing_content_root
    (env_of 200 [⟨"<p>hello</p>".toList, 1, 12⟩] bare_document true) "u" "out.html"
    ⟨-1, []⟩ (0, ⟨200, "<p>hello</p>".toList⟩, "<p>hello</p>".toList) bare_document
    rfl rfl rfl
    (parse_document_short _ _ (by decide) rfl rfl rfl)
    rfl
  ⟨rfl, h.1, h.2.1⟩

/-- C3, counterexample: the scenario document of section 8 has a content
root, and when the output file does not open `main` writes nothing and leaves
through `std::exit(-1)`. -/
theorem main_document_open_failure :
    find_element_by_class_name_doc (env_of 200 [] soup_document false).lexbor soup_document
        "recipe__text__content" = some (soup_content "Soup".toList true)
      ∧ main_document (env_of 200 [] soup_document false) [] soup_document "u" "out.html"
          = ⟨some [], FileEffect.open_failed, Outcome.exit (-1)⟩ :=
  ⟨rfl, rfl⟩

/-- C3, amended: for a document with a content root, when the output file
opens, the title lookup finds an element and every ingredient row has a
quantity element and a label element, `main` writes exactly the document of
section 4.4: the head and heading with the title text, the ingredients
heading, the table (only when an ingredient list root is found) with one row
per element of the `ingredient` collection in collection order, the
directions heading, the numbered list (only when a directions list root is
found) with one item per element of the `recipe__direction__text` collection
in collection order, and the attribution line with the URL; and it returns
0. -/
theorem main_document_writes_spec_output (env : Env) (html : Bytes) (doc : Document)
    (url output_filename : String) (content_root title : Element)
    (rows : Option (List (Bytes × Bytes)))
    (hroot : find_element_by_class_name_doc env.lexbor doc "recipe__text__content"
      = some content_root)
    (hopen : env.can_open output_filename = true)
    (htitle : find_element_by_class_name_doc env.lexbor doc "recipe-header__title"
      = some title)
    (hrows : spec_table_rows env.lexbor content_root = some rows) :
    main_document env html doc url output_filename
      = ⟨some html,
         FileEffect.written (spec_output (element_text env.lexbor title) rows
           (spec_direction_items env.lexbor content_root) url),
         Outcome.returned 0⟩ := by
  simp [main_document, hroot, hopen, main_write_eq env.lexbor doc content_root title url rows
    htitle hrows]

/-- The end-to-end scenario of section 8: one row with cells `2 cups` and
`water`, one item `Boil it.`, title `Soup`. -/
theorem main_document_writes_spec_output_witness :
    spec_table_rows (env_of 200 [] soup_document true).lexbor (soup_content "Soup".toList true)
        = some (some [("2 cups".toList, "water".toList)])
      ∧ spec_output "Soup".toList (some [("2 cups".toList, "water".toList)])
          (some ["Boil it.".toList]) "http://example.org/soup"
        = ("<html><head><meta charset=utf-8><title>Soup</title></head><body><h1>Soup</h1>"
          ++ "<h2>Ingredients</h2><table><tr><td>2 cups</td><td>water</td></tr></table>"
          ++ "<h2>Directions</h2><ol><li>Boil it.</li></ol>"
          ++ "<p><i>Extracted from http://example.org/soup</i></p></body></html>").toList
      ∧ main_document (env_of 200 [] soup_document true) [] soup_document
          "http://example.org/soup" "out.html"
        = ⟨some [],
           FileEffect.written (spec_output
             (element_text (env_of 200 [] soup_document true).lexbor
               (.mk "div" ["recipe-header__title"] [.text "Soup".toList]))
             (some [("2 cups".toList, "water".toList)])
             (spec_direction_items (env_of 200 [] soup_document true).lexbor
               (soup_content "Soup".toList true))
             "http://example.org/soup"),
           Outcome.returned 0⟩ :=
  ⟨rfl, rfl,
   main_document_writes_spec_output (env_of 200 [] soup_document true) [] soup_document
     "http://example.org/soup" "out.html" (soup_content "Soup".toList true)
     (.mk "div" ["recipe-header__title"] [.text "Soup".toList])
     (some [("2 cups".toList, "water".toList)]) rfl rfl rfl rfl⟩

/-- C5, evaluated on the code: `lxb::text_content` tests nothing before it
reads `element->node`, so on a null pointer it reads through the null pointer
instead of returning an empty string; and `main` calls it with the result of
the title lookup untested, so a document with a content root and no title
element ends the run in that fault, after the output file has been opened. -/
theorem text_content_null :
    (∀ L : Lexbor, text_content L none = Except.error Fault.null_dereference)
      ∧ find_element_by_class_name_doc (env_of 200 [] untitled_document true).lexbor
          untitled_document "recipe-header__title" = none
      ∧ main_document (env_of 200 [] untitled_document true) [] untitled_document
          "u" "out.html"
        = ⟨some [], FileEffect.opened_incomplete, Outcome.fault Fault.null_dereference⟩ :=
  ⟨fun _ => rfl, rfl, rfl⟩

/-- C6: with the lookup of section 4.3, `find_elements_by_class_name` returns
the elements of the subtree of `root`, `root` first, whose class tokens
contain `class_name`, in document order, and `size()` is the number of such
elements; and whatever the library does, the collection holds what the lookup
put into it when the status is OK and is empty when the status is not OK. -/
theorem find_elements_by_class_name_spec (tree : Bytes → Document) (root : Element)
    (class_name : String) (size_hint : Nat) :
    (find_elements_by_class_name (lexbor_spec tree) root class_name size_hint).m_elements
        = root.subtree.filter (fun e => decide (class_name ∈ e.class_tokens))
      ∧ (find_elements_by_class_name (lexbor_spec tree) root class_name size_hint).size
        = root.subtree.countP (fun e => decide (class_name ∈ e.class_tokens))
      ∧ ∀ L : Lexbor,
          (find_elements_by_class_name L root class_name size_hint).m_elements
            = if (L.elements_by_class_name root [] class_name).1 = LXB_STATUS_OK
              then (L.elements_by_class_name root [] class_name).2 else [] := by
  have h1 : (find_elements_by_class_name (lexbor_spec tree) root class_name size_hint).m_elements
      = root.subtree.filter (fun e => decide (class_name ∈ e.class_tokens)) := by
    rw [find_elements_eq]
    simp [lexbor_spec, Element.walk_subtree]
  refine ⟨h1, ?_, fun L => find_elements_eq L root class_name size_hint⟩
  rw [element_collection.size, h1, List.countP_eq_length_filter]

/-- C7: `find_element_by_class_name(root, class_name)` is element 0 of
`find_elements_by_class_name(root, class_name)` when there is one, it is
absent exactly when that collection is empty, and the overload on a document
is the overload on an element at the document element. -/
theorem find_element_by_class_name_first (L : Lexbor) (root : Element) (doc : Document)
    (class_name : String) :
    find_element_by_class_name L root class_name
        = (find_elements_by_class_name L root class_name 10).m_elements[0]?
      ∧ (find_element_by_class_name L root class_name = none
          ↔ (find_elements_by_class_name L root class_name 10).empty = true)
      ∧ find_element_by_class_name_doc L doc class_name
        = find_element_by_class_name L doc.element class_name := by
  refine ⟨?_, ?_, rfl⟩
  · rw [find_element_eq_head, List.head?_eq_getElem?]
  · rw [find_element_eq_head, element_collection.empty]
    cases (find_elements_by_class_name L root class_name 10).m_elements <;> simp

/-- C8, evaluated on the code: the status of the response is looked at only
inside the write function.  For a 404 response with an empty body the write
function is never invoked, `fetch` gives 0 and `main` calls `parse_document`,
here with the empty body; the run then ends at the content root test. -/
theorem main_404_empty_body :
    curl_client.fetch (env_of 404 [] bare_document true).curl ⟨-1, []⟩ "u" []
        = Except.ok (0, ⟨-1, []⟩, [])
      ∧ main (env_of 404 [] bare_document true) "u" "out.html"
        = ⟨some [], FileEffect.untouched, Outcome.exit (-1)⟩ := by
  refine ⟨rfl, ?_⟩
  have hc : curl_client.create (env_of 404 [] bare_document true).curl
      = Except.ok ⟨-1, []⟩ := rfl
  have hf : curl_client.fetch (env_of 404 [] bare_document true).curl ⟨-1, []⟩ "u" []
      = Except.ok (0, ⟨-1, []⟩, []) := rfl
  have hp : parse_document (env_of 404 [] bare_document true).lexbor []
      = Except.ok bare_document := parse_document_short _ _ (by decide) rfl rfl rfl
  have hd : main_document (env_of 404 [] bare_document true) [] bare_document "u" "out.html"
      = ⟨some [], FileEffect.untouched, Outcome.exit (-1)⟩ := rfl
  simp [main, hc, hf, hp, hd]

/-- C9: for a successful fetch (setting the URL succeeds, the transfer ends
with `CURLE_OK`, the response code is below 400) in which every block
delivered has `len * num` characters, the product fitting a `size_t`, `fetch`
called with an empty `buffer`, as `main` calls it, returns 0 and hands back
in `buffer` exactly the concatenation of the blocks in delivery order; and
the invocation of the write function on each block returns `len * num`,
whatever the client holds at that moment. -/
theorem fetch_body_is_concatenation (C : Curl) (self : curl_client) (url : String)
    (hurl : C.setopt_url = CURLE_OK) (hres : C.result = CURLE_OK)
    (hcode : C.response_code < 400)
    (hwf : ∀ b ∈ C.blocks, b.data.length = b.len * b.num ∧ b.len * b.num < 2 ^ 64) :
    (∃ client, curl_client.fetch C self url []
        = Except.ok (0, client, (C.blocks.map Block.data).flatten))
      ∧ ∀ b ∈ C.blocks, ∀ c : curl_client,
          (curl_client.write_callback C c b.data b.len b.num).1 = b.len * b.num := by
  constructor
  · obtain ⟨client, h⟩ := fetch_appends C self url [] hurl hres hcode hwf
    exact ⟨client, by simpa using h⟩
  · intro b hb c
    rw [(write_callback_below_400 C c b.data b.len b.num hcode).1,
      size_mul_of_lt _ _ (hwf b hb).2]

/-- A transfer of two blocks with status 200, fetched by a new client into an
empty buffer. -/
theorem fetch_body_is_concatenation_witness :
    (curl_of 200 [⟨"<p>".toList, 1, 3⟩, ⟨"hi</p>".toList, 3, 2⟩]).response_code < 400
      ∧ curl_client.fetch (curl_of 200 [⟨"<p>".toList, 1, 3⟩, ⟨"hi</p>".toList, 3, 2⟩])
          ⟨-1, []⟩ "u" []
        = Except.ok (0, ⟨200, "<p>hi</p>".toList⟩, "<p>hi</p>".toList)
      ∧ ((∃ client, curl_client.fetch
            (curl_of 200 [⟨"<p>".toList, 1, 3⟩, ⟨"hi</p>".toList, 3, 2⟩]) ⟨-1, []⟩ "u" []
          = Except.ok (0, client,
              ((curl_of 200 [⟨"<p>".toList, 1, 3⟩, ⟨"hi</p>".toList, 3, 2⟩]).blocks.map
                Block.data).flatten))
        ∧ ∀ b ∈ (curl_of 200 [⟨"<p>".toList, 1, 3⟩, ⟨"hi</p>".toList, 3, 2⟩]).blocks,
            ∀ c : curl_client,
              (curl_client.write_callback
                (curl_of 200 [⟨"<p>".toList, 1, 3⟩, ⟨"hi</p>".toList, 3, 2⟩])
                c b.data b.len b.num).1 = b.len * b.num) :=
  ⟨by decide, rfl,
   fetch_body_is_concatenation
     (curl_of 200 [⟨"<p>".toList, 1, 3⟩, ⟨"hi</p>".toList, 3, 2⟩])
     ⟨-1, []⟩ "u" rfl rfl (by decide)
     (by
       intro b hb
       simp only [curl_of, List.mem_cons, List.mem_singleton, List.not_mem_nil, or_false] at hb
       rcases hb with rfl | rfl <;> exact ⟨rfl, by norm_num⟩)⟩

/-- C10, evaluated on the code: `fetch` returns the code of the transfer, not
the status of the response.  A transfer that completes with status 200 makes
it return 0, and only a write the write function refuses (status 404 here)
makes it return something else, 23, the code `CURLE_WRITE_ERROR`. -/
theorem fetch_returns_transfer_code :
    (curl_of 200 [⟨['a'], 1, 1⟩]).response_code = 200
      ∧ curl_client.fetch (curl_of 200 [⟨['a'], 1, 1⟩]) ⟨-1, []⟩ "u" []
        = Except.ok (0, ⟨200, ['a']⟩, ['a'])
      ∧ curl_client.fetch (curl_of 404 [⟨['a'], 1, 1⟩]) ⟨-1, []⟩ "u" []
        = Except.ok (23, ⟨404, []⟩, []) :=
  ⟨rfl, rfl, rfl⟩

end Scrape
